import Mathlib

/-!
Shallow embedding of the time-tracker application (`timepy.py`, `billing.py`,
`time_tracker_app/hooks.py`) and proofs about its billing / time-aggregation
logic.

Modelling conventions:

* Request parameters and row values that pass through the framework's `flt`
  coercion are modelled by `Param`: a value that parses as a number `q` is
  `Param.num q`, unparseable text is `Param.junk s`, a missing value is
  `Param.null`; `flt` sends the latter two to `0`, exactly like `frappe.utils.flt`.
* Machine floats are modelled as rationals (`ℚ`); the arithmetic performed by
  the code (sums and one product per report) is exact on the inputs considered.
* The external store (database) is a `Store`: a list of projects and a list of
  time-log rows.  The ambient session (current user, roles, permission verdicts,
  current date) is an explicit `Ctx` record.
* Error kinds follow the specification's taxonomy (§7): a throw site whose
  condition is "referenced entity absent" is `Err.notFound`, malformed or
  out-of-range input is `Err.validation`, role/permission rejections are
  `Err.permission`.  The concrete exception class attached by the external
  framework's `throw` helper is outside this repository.
* `generate_invoice` and `get_all_employees_hours` additionally return a trace
  of the store reads they perform, so that "no fetch happened" is a provable
  statement.
-/

namespace TimeTracker

/-- A raw value as it reaches the `flt` coercion: text that parses as the
number `q`, unparseable text, or a missing value. -/
inductive Param where
  | num (q : ℚ)
  | junk (s : String)
  | null
deriving DecidableEq, Repr

/-- `frappe.utils.flt`: safe float conversion; unparseable or missing input
becomes `0` instead of raising. -/
def flt : Param → ℚ
  | .num q => q
  | .junk _ => 0
  | .null => 0

/-- `flt` applied to a possibly-NULL numeric column (`value or 0` idiom). -/
def fltOpt : Option ℚ → ℚ
  | some q => q
  | none => 0

/-- A calendar date, as stored in the `log_date` column (`YYYY-MM-DD`). -/
structure Date where
  year : Nat
  month : Nat
  day : Nat
deriving DecidableEq, Repr

/-- Lexicographic order on dates; agrees with the string order on zero-padded
`YYYY-MM-DD` literals used by the `["between", [lo, hi]]` filter. -/
def dateLe (a b : Date) : Prop :=
  a.year < b.year ∨ (a.year = b.year ∧
    (a.month < b.month ∨ (a.month = b.month ∧ a.day ≤ b.day)))

instance (a b : Date) : Decidable (dateLe a b) := by
  unfold dateLe; infer_instance

/-- Error kinds, per the specification's taxonomy (§7). -/
inductive Err where
  | validation (msg : String)
  | notFound (msg : String)
  | permission (msg : String)
deriving DecidableEq, Repr

/-- The message carried by an error (`str(e)` in the bulk importer). -/
def errMsg : Err → String
  | .validation m => m
  | .notFound m => m
  | .permission m => m

/-- A `Project` document: name (primary key), display name, hourly billing
rate (NULL when unset), customer reference. -/
structure Project where
  name : String
  project_name : String
  billing_rate : Option ℚ
  customer : String
deriving DecidableEq, Repr

/-- A `Time Log` document.  `docstatus` is the framework's document status:
`0` draft, `1` submitted, `2` cancelled. -/
structure TimeEntry where
  name : String
  project : String
  hours : Param
  description : String
  log_date : Date
  logged_by : String
  docstatus : Nat
deriving DecidableEq, Repr

/-- The external store: all `Project` and `Time Log` rows. -/
structure Store where
  projects : List Project
  entries : List TimeEntry
deriving DecidableEq, Repr

/-- The ambient session: current user, their roles, the permission engine's
verdicts for `Time Log` create/write, and the current date (`today()`). -/
structure Ctx where
  user : String
  roles : List String
  canCreateTimeLog : Bool
  canWriteTimeLog : Bool
  today : Date
deriving DecidableEq, Repr

/-- `frappe.db.exists("Project", p)`. -/
def projectExists (s : Store) (p : String) : Bool :=
  s.projects.any (fun pr => pr.name == p)

/-- `frappe.db.get_value("Project", p, fields)`: the project row, if any. -/
def getProject (s : Store) (p : String) : Option Project :=
  s.projects.find? (fun pr => pr.name == p)

/-- `frappe.only_for(roles)` succeeds iff the caller holds one of `roles`. -/
def hasAnyRole (ctx : Ctx) (roles : List String) : Bool :=
  roles.any (fun r => ctx.roles.contains r)

/-- Modelled from the spec: `hooks.py` registers
`time_tracker.api.time_api.validate_time_log` as the `before_insert` hook of
`Time Log`, but its body is absent from the sources.  Per the spec (§6) it is
"a pre-creation hook rejecting entries whose hours exceed 24". -/
def validate_time_log (e : TimeEntry) : Except Err Unit :=
  if 24 < flt e.hours then .error (.validation "Hours cannot exceed 24")
  else .ok ()

/-- Name given to a freshly inserted `Time Log` document. -/
def newName (s : Store) : String :=
  "TL-" ++ toString (s.entries.length + 1)

/-- `doc.insert(ignore_permissions=False)`: the framework checks create
permission, validates the `project` link field against an existing `Project`
(the spec's foreign-key constraint on TimeEntry), runs the `before_insert`
hook, then appends the row.  The `after_insert` hook
(`update_project_billing`, body absent from the sources) rewrites only
project-level billing metadata per the spec and touches no `Time Log` row, so
it does not appear in the entry-level model. -/
def insertTimeLog (ctx : Ctx) (s : Store) (e : TimeEntry) :
    Except Err (Store × String) :=
  if ctx.canCreateTimeLog then
    if projectExists s e.project then
      match validate_time_log e with
      | .error err => .error err
      | .ok _ => .ok ({ s with entries := s.entries ++ [e] }, e.name)
    else .error (.validation ("Could not find Project: " ++ e.project))
  else .error (.permission "Not permitted to create Time Log")

/-- `log_time(project, hours, description, log_date)` from `timepy.py`. -/
def logTime (ctx : Ctx) (s : Store) (project : String) (hours : Param)
    (description : Option String) (log_date : Option Date) :
    Except Err (Store × String) :=
  if project = "" then .error (.validation "Project is required")
  else
    let h := flt hours
    if h ≤ 0 then .error (.validation "Hours must be greater than 0")
    else if 24 < h then .error (.validation "Hours cannot exceed 24 in a day")
    else if ctx.canCreateTimeLog then
      if projectExists s project then
        insertTimeLog ctx s
          { name := newName s
            project := project
            hours := .num h
            description := description.getD ""
            log_date := log_date.getD ctx.today
            logged_by := ctx.user
            docstatus := 0 }
      else .error (.notFound ("Project " ++ project ++ " does not exist"))
    else .error (.permission "You do not have permission to create Time Logs")

/-- Stable insertion step: `a` is placed before the first element it should
not come after. -/
def insertBy (le : α → α → Bool) (a : α) : List α → List α
  | [] => [a]
  | b :: l => if le a b then a :: b :: l else b :: insertBy le a l

/-- Stable insertion sort (used to model the store's `ORDER BY`; where the
external store leaves tie order unspecified, the spec (§4.6) fixes it as a
stable sort, ties in input order). -/
def sortBy (le : α → α → Bool) : List α → List α
  | [] => []
  | a :: l => insertBy le a (sortBy le l)

/-- Sum of the coerced `hours` fields of a row list
(`sum(flt(log.hours) for log in logs)`). -/
def totalHours (logs : List TimeEntry) : ℚ :=
  (logs.map (fun l => flt l.hours)).sum

/-- The payload of `get_project_summary`. -/
structure Summary where
  project : String
  total_hours : ℚ
  billing_rate : ℚ
  total_amount : ℚ
  log_count : Nat
  logs : List TimeEntry
deriving DecidableEq, Repr

/-- `get_project_summary(project)` from `timepy.py`: filter rows by project
only (no docstatus and no period condition appears in the `get_list` call),
order by `log_date desc`, keep at most 100 rows, then aggregate against the
project's billing rate (`get_value(...) or 0`). -/
def getProjectSummary (s : Store) (project : String) : Except Err Summary :=
  if projectExists s project then
    let logs := (sortBy (fun e₁ e₂ => decide (dateLe e₂.log_date e₁.log_date))
      (s.entries.filter (fun e => e.project == project))).take 100
    let rate := fltOpt ((getProject s project).bind (fun pr => pr.billing_rate))
    let th := totalHours logs
    .ok { project := project, total_hours := th, billing_rate := rate,
          total_amount := th * rate, log_count := logs.length, logs := logs }
  else .error (.notFound ("Project not found: " ++ project))

/-- The row predicate of the invoice query in `billing.py`: project match,
month and year of `log_date`, and `docstatus = 0`. -/
def invoiceFilter (project : String) (month year : Nat) (e : TimeEntry) : Bool :=
  e.project == project && e.log_date.month == month &&
    e.log_date.year == year && e.docstatus == 0

/-- The payload of `generate_invoice`. -/
structure Invoice where
  project : String
  customer : String
  month : Nat
  year : Nat
  total_hours : ℚ
  billing_rate : ℚ
  total_amount : ℚ
  logs : List TimeEntry
  generated_on : Date
  generated_by : String
deriving DecidableEq, Repr

/-- `generate_invoice(project, month, year)` from `billing.py`.  The month and
year arrive already coerced (their defaulting to the current date is
environmental).  The first component records the store reads performed, in
order. -/
def generateInvoice (ctx : Ctx) (s : Store) (project : String)
    (month year : Nat) : List String × Except Err Invoice :=
  if hasAnyRole ctx ["Time Tracker Manager", "System Manager"] then
    match getProject s project with
    | none =>
      (["get_value Project"],
        .error (.notFound ("Project " ++ project ++ " not found")))
    | some pd =>
      let billing_rate := fltOpt pd.billing_rate
      if billing_rate = 0 then
        (["get_value Project"],
          .error (.validation ("Billing rate not set for project " ++ project)))
      else
        let logs := sortBy (fun e₁ e₂ => decide (dateLe e₁.log_date e₂.log_date))
          (s.entries.filter (invoiceFilter project month year))
        if logs = [] then
          (["get_value Project", "sql Time Log"],
            .error (.notFound ("No time logs found for " ++ project)))
        else
          (["get_value Project", "sql Time Log"],
            .ok { project := project, customer := pd.customer, month := month,
                  year := year, total_hours := totalHours logs,
                  billing_rate := billing_rate,
                  total_amount := totalHours logs * billing_rate,
                  logs := logs, generated_on := ctx.today,
                  generated_by := ctx.user })
  else ([], .error (.permission "Not permitted"))

/-- One output row of the grouped all-employees report. -/
structure GroupRow where
  logged_by : String
  project : String
  total_hours : ℚ
  entries : Nat
deriving DecidableEq, Repr

/-- Fold step of `GROUP BY logged_by, project`: accumulate the row into its
group, creating the group at the end on first sight (discovery order). -/
def addRow (groups : List GroupRow) (e : TimeEntry) : List GroupRow :=
  if groups.any (fun g => g.logged_by == e.logged_by && g.project == e.project) then
    groups.map (fun g =>
      if g.logged_by == e.logged_by && g.project == e.project then
        { g with total_hours := g.total_hours + flt e.hours,
                 entries := g.entries + 1 }
      else g)
  else
    groups ++ [{ logged_by := e.logged_by, project := e.project,
                 total_hours := flt e.hours, entries := 1 }]

/-- Modelled from the spec (grouping semantics of the SQL executed by the
external store): group rows by the (author, project) composite key in
discovery order, summing hours and counting entries per group (§4.6). -/
def groupRows (rows : List TimeEntry) : List GroupRow :=
  rows.foldl addRow []

/-- The (author, project) composite grouping key, as a row predicate. -/
def keyMatch (a p : String) (e : TimeEntry) : Bool :=
  e.logged_by == a && e.project == p

/-- The row predicate of the all-employees query: month and year of
`log_date`, and `docstatus != 2` (not cancelled). -/
def employeesFilter (month year : Nat) (e : TimeEntry) : Bool :=
  e.log_date.month == month && e.log_date.year == year && e.docstatus != 2

/-- `get_all_employees_hours(month, year)` from `timepy.py`: role gate, then
the grouped SQL over the period's non-cancelled rows, ordered by summed hours
descending (tie order fixed as stable by the spec §4.6, since the external
store leaves it unspecified).  The first component records store reads. -/
def getAllEmployeesHours (ctx : Ctx) (s : Store) (month year : Nat) :
    List String × Except Err (Nat × Nat × List GroupRow) :=
  if hasAnyRole ctx ["HR Manager", "System Manager"] then
    let rows := s.entries.filter (employeesFilter month year)
    let data := sortBy (fun g₁ g₂ => decide (g₂.total_hours ≤ g₁.total_hours))
      (groupRows rows)
    (["sql Time Log"], .ok (month, year, data))
  else ([], .error (.permission "Not permitted"))

/-- `frappe.get_doc("Time Log", name)`: lookup by document name. -/
def findEntry (s : Store) (name : String) : Option TimeEntry :=
  s.entries.find? (fun e => e.name == name)

/-- `safe_update_hours(time_log_name, new_hours)` from `timepy.py`: coerce the
new value, fetch the document, enforce owner-or-writer, then rewrite the
`hours` field and save.  No range check is performed on the new value.
Returns the new store together with the old and new hours. -/
def safeUpdateHours (ctx : Ctx) (s : Store) (time_log_name : String)
    (new_hours : Param) : Except Err (Store × ℚ × ℚ) :=
  let nh := flt new_hours
  match findEntry s time_log_name with
  | none => .error (.notFound ("Time Log " ++ time_log_name ++ " not found"))
  | some doc =>
    if doc.logged_by ≠ ctx.user ∧ ¬ ctx.canWriteTimeLog then
      .error (.permission "You can only edit your own time logs")
    else
      .ok ({ s with entries := s.entries.map (fun e =>
              if e.name == time_log_name then { e with hours := .num nh } else e) },
            flt doc.hours, nh)

/-- One item of the bulk importer's (already JSON-parsed) input list; each
field is `log_data.get(...)`, absent keys modelled as `none`. -/
structure LogSpec where
  project : Option String
  hours : Option Param
  description : Option String
  log_date : Option Date
deriving DecidableEq, Repr

/-- The result payload of `bulk_log_time`. -/
structure BulkResult where
  created : List String
  created_count : Nat
  errors : List (Nat × String)
  error_count : Nat
deriving DecidableEq, Repr

/-- The body of one iteration of the `bulk_log_time` loop: per-item
validation (`project` present, coerced hours positive) then insert; any
failure becomes the item's error string. -/
def bulkItem (ctx : Ctx) (s : Store) (idx : Nat) (ld : LogSpec) :
    Except String (Store × String) :=
  if ld.project.getD "" = "" then
    .error ("Item " ++ toString (idx + 1) ++ ": project is required")
  else
    let hours := flt (ld.hours.getD (.num 0))
    if hours ≤ 0 then
      .error ("Item " ++ toString (idx + 1) ++ ": hours must be > 0")
    else
      match insertTimeLog ctx s
        { name := newName s
          project := ld.project.getD ""
          hours := .num hours
          description := ld.description.getD ""
          log_date := ld.log_date.getD ctx.today
          logged_by := ctx.user
          docstatus := 0 } with
      | .error err => .error (errMsg err)
      | .ok r => .ok r

/-- The `for idx, log_data in enumerate(logs)` loop of `bulk_log_time`:
successes extend the store and the created list, failures are collected as
`(index, message)` pairs and processing continues. -/
def bulkLoop (ctx : Ctx) : Store → Nat → List LogSpec →
    Store × List String × List (Nat × String)
  | s, _, [] => (s, [], [])
  | s, idx, ld :: rest =>
    match bulkItem ctx s idx ld with
    | .ok (s', name) =>
      let r := bulkLoop ctx s' (idx + 1) rest
      (r.1, name :: r.2.1, r.2.2)
    | .error msg =>
      let r := bulkLoop ctx s (idx + 1) rest
      (r.1, r.2.1, (idx, msg) :: r.2.2)

/-- `bulk_log_time(logs)` from `timepy.py`, after the JSON parse and
list check (the input is typed as a list here). -/
def bulkLogTime (ctx : Ctx) (s : Store) (logs : List LogSpec) :
    Store × BulkResult :=
  let r := bulkLoop ctx s 0 logs
  (r.1, { created := r.2.1, created_count := r.2.1.length,
          errors := r.2.2, error_count := r.2.2.length })

/-- String form of a date as rendered into a CSV line. -/
def dateStr (d : Date) : String :=
  toString d.year ++ "-" ++ toString d.month ++ "-" ++ toString d.day

/-- String form of an hours value as rendered into a CSV line. -/
def paramStr : Param → String
  | .num q => toString q
  | .junk s => s
  | .null => ""

/-- One CSV data row: `{log_date},{logged_by},{hours},{description or ''}`. -/
def csvLine (e : TimeEntry) : String :=
  dateStr e.log_date ++ "," ++ e.logged_by ++ "," ++ paramStr e.hours ++ "," ++
    e.description

/-- The rows fetched by `download_timesheet_csv`: project match and
`log_date` between the 1st and the 28th of the requested month (the
`["between", [f"{year}-{month:02d}-01", f"{year}-{month:02d}-28"]]` filter,
read as the date order `dateLe` on both endpoints).  No docstatus condition
appears in the query. -/
def timesheetLogs (s : Store) (project : String) (month year : Nat) :
    List TimeEntry :=
  s.entries.filter (fun e =>
    e.project == project && decide (dateLe ⟨year, month, 1⟩ e.log_date) &&
      decide (dateLe e.log_date ⟨year, month, 28⟩))

/-- A file-download response (`frappe.response` filename / filecontent). -/
structure CsvFile where
  filename : String
  content : String
deriving DecidableEq, Repr

/-- `download_timesheet_csv(project, month, year)` from `billing.py`. -/
def downloadTimesheetCsv (ctx : Ctx) (s : Store) (project : String)
    (month year : Nat) : Except Err CsvFile :=
  if hasAnyRole ctx ["Time Tracker Manager", "System Manager"] then
    let logs := timesheetLogs s project month year
    let lines := "Date,Employee,Hours,Description" :: logs.map csvLine
    .ok { filename := "timesheet_" ++ project ++ "_" ++ toString year ++ "_" ++
            toString month ++ ".csv",
          content := String.intercalate "\n" lines }
  else .error (.permission "Not permitted")

/-- The spec's data-model invariant on one entry: hours in (0, 24]. -/
def hoursOk (e : TimeEntry) : Prop :=
  0 < flt e.hours ∧ flt e.hours ≤ 24

instance (e : TimeEntry) : Decidable (hoursOk e) := by
  unfold hoursOk; infer_instance

/-- The spec's store invariant: every persisted entry has hours in (0, 24]. -/
def StoreInv (s : Store) : Prop :=
  ∀ e ∈ s.entries, hoursOk e

instance (s : Store) : Decidable (StoreInv s) :=
  List.decidableBAll _ _

/-- Validity of one bulk item against a project table: the conditions under
which the importer's per-item pipeline (presence check, positivity check,
link validation, pre-insert hook) accepts it. -/
def validItem (projects : List Project) (ld : LogSpec) : Prop :=
  ld.project.getD "" ≠ "" ∧
  projects.any (fun pr => pr.name == ld.project.getD "") = true ∧
  0 < flt (ld.hours.getD (.num 0)) ∧ flt (ld.hours.getD (.num 0)) ≤ 24

instance (ps : List Project) (ld : LogSpec) : Decidable (validItem ps ld) := by
  unfold validItem; infer_instance

/-- The round-trip scenario of the spec (§8): log 2 hours, then 3 hours, then
read the project summary; the result is (total_hours, total_amount,
log_count). -/
def logTwoThenSummary (ctx : Ctx) (s : Store) (project : String)
    (d₁ d₂ : Date) : Except Err (ℚ × ℚ × Nat) :=
  match logTime ctx s project (.num 2) none (some d₁) with
  | .error err => .error err
  | .ok r₁ =>
    match logTime ctx r₁.1 project (.num 3) none (some d₂) with
    | .error err => .error err
    | .ok r₂ =>
      match getProjectSummary r₂.1 project with
      | .error err => .error err
      | .ok sm => .ok (sm.total_hours, sm.total_amount, sm.log_count)

/-! ### Concrete sessions, projects and stores used in witnesses and
counterexamples -/

/-- A fully privileged session. -/
def ctxAdmin : Ctx where
  user := "alice"
  roles := ["System Manager", "HR Manager", "Time Tracker Manager"]
  canCreateTimeLog := true
  canWriteTimeLog := true
  today := ⟨2024, 5, 10⟩

/-- A logged-in session with no elevated role. -/
def ctxNoRole : Ctx where
  user := "bob"
  roles := ["Employee"]
  canCreateTimeLog := true
  canWriteTimeLog := false
  today := ⟨2024, 5, 10⟩

/-- A project with billing rate 10. -/
def projA : Project where
  name := "PROJ-001"
  project_name := "Project One"
  billing_rate := some 10
  customer := "ACME"

/-- A project whose billing rate was never set. -/
def projNoRate : Project where
  name := "PROJ-002"
  project_name := "Project Two"
  billing_rate := none
  customer := "ACME"

/-- A time entry of `h` hours for project `p` on day `d` of May 2024, by
`author`, with document status `st`. -/
def mkEntry (nm p author : String) (h : ℚ) (d : Nat) (st : Nat) : TimeEntry where
  name := nm
  project := p
  hours := .num h
  description := ""
  log_date := ⟨2024, 5, d⟩
  logged_by := author
  docstatus := st

/-- A store holding one project and no entries. -/
def storeEmpty : Store where
  projects := [projA]
  entries := []

/-- A store whose only entry for `PROJ-001` is cancelled (`docstatus = 2`). -/
def storeCancelled : Store where
  projects := [projA]
  entries := [mkEntry "TL-1" "PROJ-001" "alice" 7 3 2]

/-- A store with one valid 5-hour entry. -/
def storeOneEntry : Store where
  projects := [projA]
  entries := [mkEntry "TL-1" "PROJ-001" "alice" 5 3 0]

/-- The store `storeOneEntry` after its entry is rewritten to 25 hours. -/
def storeOneEntryUpd : Store where
  projects := [projA]
  entries := [mkEntry "TL-1" "PROJ-001" "alice" 25 3 0]

/-- A store with a rate-less project that has an entry, and a rated project
with no entries. -/
def storeRateless : Store where
  projects := [projNoRate, projA]
  entries := [mkEntry "TL-1" "PROJ-002" "alice" 4 3 0]

/-- A store whose May 2024 entries produce the grouped totals
[12, 5, 12, 3] in discovery order: (alice, PROJ-001) = 12,
(bob, PROJ-001) = 5, (carol, PROJ-001) = 12, (dave, PROJ-001) = 3. -/
def storeGroups : Store where
  projects := [projA]
  entries :=
    [ mkEntry "TL-1" "PROJ-001" "alice" 12 1 0
    , mkEntry "TL-2" "PROJ-001" "bob" 5 2 0
    , mkEntry "TL-3" "PROJ-001" "carol" 12 3 0
    , mkEntry "TL-4" "PROJ-001" "dave" 3 4 0 ]

/-- The grouped rows of `storeGroups` for May 2024, ordered by total hours
descending with the 12-total tie kept in discovery order. -/
def groupsExpected : List GroupRow :=
  [ { logged_by := "alice", project := "PROJ-001", total_hours := 12, entries := 1 }
  , { logged_by := "carol", project := "PROJ-001", total_hours := 12, entries := 1 }
  , { logged_by := "bob", project := "PROJ-001", total_hours := 5, entries := 1 }
  , { logged_by := "dave", project := "PROJ-001", total_hours := 3, entries := 1 } ]

/-- A store with entries on the 15th and the 30th of May 2024. -/
def storeMonthEnd : Store where
  projects := [projA]
  entries :=
    [ mkEntry "TL-1" "PROJ-001" "alice" 2 15 0
    , mkEntry "TL-2" "PROJ-001" "alice" 3 30 0 ]

/-- A three-item bulk payload whose middle item has non-positive hours. -/
def bulkThree : List LogSpec :=
  [ { project := some "PROJ-001", hours := some (.num 2),
      description := none, log_date := none }
  , { project := some "PROJ-001", hours := some (.num 0),
      description := none, log_date := none }
  , { project := some "PROJ-001", hours := some (.num 3),
      description := none, log_date := none } ]

/-! ### Helper lemmas about the stable sort -/

theorem insertBy_perm (le : α → α → Bool) (a : α) (l : List α) :
    List.Perm (insertBy le a l) (a :: l) := by
  induction l with
  | nil => simp [insertBy]
  | cons b t ih =>
    simp only [insertBy]
    by_cases h : le a b = true
    · simp [h]
    · simp only [h, if_false]
      exact ((ih.cons b).trans (List.Perm.swap a b t))

theorem sortBy_perm (le : α → α → Bool) (l : List α) :
    List.Perm (sortBy le l) l := by
  induction l with
  | nil => simp [sortBy]
  | cons a t ih =>
    exact (insertBy_perm le a (sortBy le t)).trans (ih.cons a)

theorem mem_sortBy (le : α → α → Bool) (l : List α) (a : α) :
    a ∈ sortBy le l ↔ a ∈ l :=
  (sortBy_perm le l).mem_iff

theorem pairwise_insertBy (le : α → α → Bool)
    (htot : ∀ x y, le x y = false → le y x = true)
    (htrans : ∀ x y z, le x y = true → le y z = true → le x z = true)
    (a : α) (l : List α)
    (hl : List.Pairwise (fun x y => le x y = true) l) :
    List.Pairwise (fun x y => le x y = true) (insertBy le a l) := by
  induction l with
  | nil => simp [insertBy]
  | cons b t ih =>
    rcases hl with _ | ⟨hb, ht⟩
    simp only [insertBy]
    by_cases h : le a b = true
    · rw [if_pos h]
      refine List.Pairwise.cons ?_ (List.Pairwise.cons hb ht)
      intro x hx
      rcases List.mem_cons.mp hx with rfl | hx'
      · exact h
      · exact htrans a b x h (hb x hx')
    · rw [if_neg h]
      refine List.Pairwise.cons ?_ (ih ht)
      intro x hx
      have hx' : x ∈ a :: t := (insertBy_perm le a t).mem_iff.mp hx
      rcases List.mem_cons.mp hx' with rfl | hx''
      · exact htot x b (by simpa using h)
      · exact hb x hx''

theorem pairwise_sortBy (le : α → α → Bool)
    (htot : ∀ x y, le x y = false → le y x = true)
    (htrans : ∀ x y z, le x y = true → le y z = true → le x z = true)
    (l : List α) :
    List.Pairwise (fun x y => le x y = true) (sortBy le l) := by
  induction l with
  | nil => simp [sortBy]
  | cons a t ih => exact pairwise_insertBy le htot htrans a (sortBy le t) ih

theorem filter_insertBy_pos (le : α → α → Bool) (p : α → Bool) (a : α)
    (hpa : p a = true) (hdrop : ∀ b, le a b = false → p b = false)
    (l : List α) : (insertBy le a l).filter p = a :: l.filter p := by
  induction l with
  | nil => simp [insertBy, hpa]
  | cons b t ih =>
    simp only [insertBy]
    by_cases h : le a b = true
    · simp [h, List.filter_cons, hpa]
    · have hpb : p b = false := hdrop b (by simpa using h)
      simp [h, List.filter_cons, hpb, ih]

theorem filter_insertBy_neg (le : α → α → Bool) (p : α → Bool) (a : α)
    (hpa : p a = false) (l : List α) :
    (insertBy le a l).filter p = l.filter p := by
  induction l with
  | nil => simp [insertBy, hpa]
  | cons b t ih =>
    simp only [insertBy]
    by_cases h : le a b = true
    · simp [h, List.filter_cons, hpa]
    · simp [h, List.filter_cons, ih]

theorem sortBy_filter_stable (le : α → α → Bool) (p : α → Bool)
    (hdrop : ∀ x y, p x = true → le x y = false → p y = false)
    (l : List α) : (sortBy le l).filter p = l.filter p := by
  induction l with
  | nil => simp [sortBy]
  | cons a t ih =>
    simp only [sortBy]
    by_cases hpa : p a = true
    · rw [filter_insertBy_pos le p a hpa (fun b hb => hdrop a b hpa hb), ih,
        List.filter_cons, if_pos hpa]
    · have hpa' : p a = false := by simpa using hpa
      rw [filter_insertBy_neg le p a hpa', ih, List.filter_cons, if_neg hpa]

/-! ### Small bridging lemmas -/

theorem getProject_some_exists (s : Store) (p : String) (pr : Project)
    (h : getProject s p = some pr) : projectExists s p = true := by
  unfold getProject at h
  unfold projectExists
  rw [List.any_eq_true]
  refine ⟨pr, List.mem_of_find?_eq_some h, ?_⟩
  simpa using List.find?_some h

/-! ### Claim theorems -/

/-- C1: `log_time` succeeds iff the coerced hours value `h` satisfies
`0 < h ≤ 24` (in a context where the project argument, permission and
project existence are in order); out-of-range hours (coercing to zero, to a
negative number, or above 24) are always rejected with a validation error,
and the rejection produces no new time entry (the operation returns no
store). -/
theorem C1_log_time_validation (ctx : Ctx) (s : Store) (project : String)
    (hours : Param) (d : Option String) (dt : Option Date)
    (hp : project ≠ "") (hc : ctx.canCreateTimeLog = true)
    (he : projectExists s project = true) :
    ((∃ r, logTime ctx s project hours d dt = .ok r) ↔
      (0 < flt hours ∧ flt hours ≤ 24)) ∧
    (¬ (0 < flt hours ∧ flt hours ≤ 24) →
      ∃ m, logTime ctx s project hours d dt = .error (.validation m)) := by
  by_cases h0 : flt hours ≤ 0
  · have hn : ¬ (0 < flt hours ∧ flt hours ≤ 24) :=
      fun h => absurd h0 (not_le.mpr h.1)
    constructor
    · simp only [logTime, if_neg hp, if_pos h0]
      constructor
      · rintro ⟨r, hr⟩; cases hr
      · intro h; exact absurd h hn
    · intro _
      exact ⟨"Hours must be greater than 0", by
        simp only [logTime, if_neg hp, if_pos h0]⟩
  · have h0' : 0 < flt hours := lt_of_not_le h0
    by_cases h24 : 24 < flt hours
    · have hn : ¬ (0 < flt hours ∧ flt hours ≤ 24) :=
        fun h => absurd h24 (not_lt.mpr h.2)
      constructor
      · simp only [logTime, if_neg hp, if_neg h0, if_pos h24]
        constructor
        · rintro ⟨r, hr⟩; cases hr
        · intro h; exact absurd h hn
      · intro _
        exact ⟨"Hours cannot exceed 24 in a day", by
          simp only [logTime, if_neg hp, if_neg h0, if_pos h24]⟩
    · have h24' : flt hours ≤ 24 := not_lt.mp h24
      constructor
      · constructor
        · intro _; exact ⟨h0', h24'⟩
        · intro _
          refine ⟨?_, ?_⟩
          · exact ({ s with entries := s.entries ++
              [{ name := newName s, project := project,
                 hours := .num (flt hours),
                 description := d.getD "", log_date := dt.getD ctx.today,
                 logged_by := ctx.user, docstatus := 0 }] }, newName s)
          · simp only [logTime, if_neg hp, if_neg h0, if_neg h24,
              insertTimeLog, validate_time_log, hc, if_pos he]
            rw [if_neg (show ¬ (24 < flt (Param.num (flt hours))) from h24)]
            simp
      · intro h; exact absurd ⟨h0', h24'⟩ h

/-- Witness for C1 at a concrete input: a one-project store where logging
3 hours succeeds and the bound `0 < 3 ≤ 24` holds. -/
theorem C1_log_time_validation_witness :
    (("PROJ-001" : String) ≠ "") ∧ ctxAdmin.canCreateTimeLog = true ∧
    projectExists storeEmpty "PROJ-001" = true ∧
    ((∃ r, logTime ctxAdmin storeEmpty "PROJ-001" (.num 3) none none = .ok r) ↔
      (0 < flt (.num 3) ∧ flt (.num 3) ≤ 24)) := by
  refine ⟨by decide, rfl, by decide, ?_⟩
  exact (C1_log_time_validation ctxAdmin storeEmpty "PROJ-001" (.num 3)
    none none (by decide) rfl (by decide)).1

/-- C2: for every non-empty row list and rate, the aggregation computes
total_hours as the sum of the coerced hours (a missing or unparseable hours
field contributes 0, and the computation is total, never an error) and
total_amount as exactly total_hours × rate, which is 0 when the rate is 0;
both report builders (`generate_invoice`, `get_project_summary`) emit totals
related in exactly this way. -/
theorem C2_aggregator_totals (logs : List TimeEntry) (rate : ℚ)
    (hne : logs ≠ []) :
    totalHours logs * rate =
      ((logs.map (fun l => flt l.hours)).foldr (· + ·) 0) * rate ∧
    (rate = 0 → totalHours logs * rate = 0) ∧
    (∀ e : TimeEntry, (e.hours = .null ∨ ∃ str, e.hours = .junk str) →
      totalHours (e :: logs) = totalHours logs) ∧
    (∀ ctx s project month year inv,
      (generateInvoice ctx s project month year).2 = .ok inv →
      inv.total_amount = totalHours inv.logs * inv.billing_rate) ∧
    (∀ s project r, getProjectSummary s project = .ok r →
      r.total_amount = totalHours r.logs * r.billing_rate) := by
  refine ⟨?_, ?_, ?_, ?_, ?_⟩
  · rw [totalHours, List.sum_eq_foldr]
  · intro h; rw [h, mul_zero]
  · intro e he
    rcases he with h | ⟨str, h⟩ <;>
      simp [totalHours, h, flt]
  · intro ctx s project month year inv h
    unfold generateInvoice at h
    split at h
    · split at h
      · cases h
      · simp only at h
        split at h
        · cases h
        · split at h
          · cases h
          · cases h
            rfl
    · cases h
  · intro s project r h
    unfold getProjectSummary at h
    split at h
    · simp only at h
      cases h
      rfl
    · cases h

/-- Witness for C2 at a concrete input: a singleton row list with an
unparseable hours field together with a 5-hour row. -/
theorem C2_aggregator_totals_witness :
    ([mkEntry "TL-1" "PROJ-001" "alice" 5 3 0] ≠ ([] : List TimeEntry)) ∧
    (totalHours [mkEntry "TL-1" "PROJ-001" "alice" 5 3 0] * 10 =
      (([mkEntry "TL-1" "PROJ-001" "alice" 5 3 0].map
        (fun l => flt l.hours)).foldr (· + ·) 0) * 10) := by
  refine ⟨by decide, ?_⟩
  exact (C2_aggregator_totals [mkEntry "TL-1" "PROJ-001" "alice" 5 3 0] 10
    (by decide)).1

/-- C3: for a privileged caller, `generate_invoice` fails with the
entity-absent (not-found) error when the project does not exist; fails with a
validation error when the project's billing rate is zero or unset — and in
that case the read trace shows only the project fetch, no time-log fetch, so
the rate rejection precedes the entry fetch and fires even when matching
entries exist in the store; and fails with the not-found error when the
project is rated but the period has no matching time logs. -/
theorem C3_generate_invoice_errors (ctx : Ctx) (s : Store) (project : String)
    (month year : Nat)
    (hrole : hasAnyRole ctx ["Time Tracker Manager", "System Manager"] = true) :
    (getProject s project = none →
      generateInvoice ctx s project month year =
        (["get_value Project"],
          .error (.notFound ("Project " ++ project ++ " not found")))) ∧
    (∀ pd, getProject s project = some pd → fltOpt pd.billing_rate = 0 →
      generateInvoice ctx s project month year =
        (["get_value Project"],
          .error (.validation ("Billing rate not set for project " ++ project)))) ∧
    (∀ pd, getProject s project = some pd → fltOpt pd.billing_rate ≠ 0 →
      s.entries.filter (invoiceFilter project month year) = [] →
      generateInvoice ctx s project month year =
        (["get_value Project", "sql Time Log"],
          .error (.notFound ("No time logs found for " ++ project)))) := by
  refine ⟨?_, ?_, ?_⟩
  · intro hnone
    unfold generateInvoice
    rw [if_pos hrole, hnone]
  · intro pd hsome hzero
    unfold generateInvoice
    rw [if_pos hrole, hsome]
    simp only
    rw [if_pos hzero]
  · intro pd hsome hnz hempty
    unfold generateInvoice
    rw [if_pos hrole, hsome]
    simp only
    rw [if_neg hnz, hempty]
    simp [sortBy]

/-- Witness for C3 at concrete inputs: one store exercising all three
failure paths (missing project, rate-less project that does have a matching
entry, rated project with no entries). -/
theorem C3_generate_invoice_errors_witness :
    hasAnyRole ctxAdmin ["Time Tracker Manager", "System Manager"] = true ∧
    storeRateless.entries.filter (invoiceFilter "PROJ-002" 5 2024) ≠ [] ∧
    generateInvoice ctxAdmin storeRateless "NOPE" 5 2024 =
      (["get_value Project"],
        .error (.notFound ("Project " ++ "NOPE" ++ " not found"))) ∧
    generateInvoice ctxAdmin storeRateless "PROJ-002" 5 2024 =
      (["get_value Project"],
        .error (.validation ("Billing rate not set for project " ++ "PROJ-002"))) ∧
    generateInvoice ctxAdmin storeRateless "PROJ-001" 5 2024 =
      (["get_value Project", "sql Time Log"],
        .error (.notFound ("No time logs found for " ++ "PROJ-001"))) := by
  refine ⟨by decide, by decide, ?_, ?_, ?_⟩
  · exact (C3_generate_invoice_errors ctxAdmin storeRateless "NOPE" 5 2024
      (by decide)).1 (by decide)
  · exact (C3_generate_invoice_errors ctxAdmin storeRateless "PROJ-002" 5 2024
      (by decide)).2.1 projNoRate (by decide) rfl
  · exact (C3_generate_invoice_errors ctxAdmin storeRateless "PROJ-001" 5 2024
      (by decide)).2.2 projA (by decide) (by decide) (by decide)

/-- C8: a caller lacking the respective elevated role gets a permission
error from `generate_invoice` and from the all-employees report, and the
read trace is empty: no store fetch happens before (or after) the rejection,
so the store is left unread; neither function writes, so it is unchanged. -/
theorem C8_permission_fail_fast (ctx : Ctx) (s : Store) (project : String)
    (month year : Nat) :
    (hasAnyRole ctx ["Time Tracker Manager", "System Manager"] = false →
      generateInvoice ctx s project month year =
        ([], .error (.permission "Not permitted"))) ∧
    (hasAnyRole ctx ["HR Manager", "System Manager"] = false →
      getAllEmployeesHours ctx s month year =
        ([], .error (.permission "Not permitted"))) := by
  constructor
  · intro h
    unfold generateInvoice
    rw [if_neg (by simp [h])]
  · intro h
    unfold getAllEmployeesHours
    rw [if_neg (by simp [h])]

/-- Witness for C8 at a concrete input: a session holding only the
`Employee` role is rejected by both endpoints with an empty read trace. -/
theorem C8_permission_fail_fast_witness :
    hasAnyRole ctxNoRole ["Time Tracker Manager", "System Manager"] = false ∧
    hasAnyRole ctxNoRole ["HR Manager", "System Manager"] = false ∧
    generateInvoice ctxNoRole storeOneEntry "PROJ-001" 5 2024 =
      ([], .error (.permission "Not permitted")) ∧
    getAllEmployeesHours ctxNoRole storeOneEntry 5 2024 =
      ([], .error (.permission "Not permitted")) := by
  refine ⟨by decide, by decide, ?_, ?_⟩
  · exact (C8_permission_fail_fast ctxNoRole storeOneEntry "PROJ-001" 5
      2024).1 (by decide)
  · exact (C8_permission_fail_fast ctxNoRole storeOneEntry "PROJ-001" 5
      2024).2 (by decide)

/-! ### Inversion and success lemmas for the writers -/

theorem insertTimeLog_ok (ctx : Ctx) (s : Store) (e : TimeEntry)
    (s' : Store) (n : String) (h : insertTimeLog ctx s e = .ok (s', n)) :
    s' = { s with entries := s.entries ++ [e] } ∧ flt e.hours ≤ 24 := by
  unfold insertTimeLog validate_time_log at h
  split at h
  · split at h
    · by_cases h24 : 24 < flt e.hours
      · rw [if_pos h24] at h; cases h
      · rw [if_neg h24] at h
        simp only at h
        cases h
        exact ⟨rfl, not_lt.mp h24⟩
    · cases h
  · cases h

theorem logTime_ok_inversion (ctx : Ctx) (s : Store) (project : String)
    (hours : Param) (d : Option String) (dt : Option Date) (s' : Store)
    (n : String) (h : logTime ctx s project hours d dt = .ok (s', n)) :
    s'.entries = s.entries ++
      [{ name := newName s, project := project, hours := .num (flt hours),
         description := d.getD "", log_date := dt.getD ctx.today,
         logged_by := ctx.user, docstatus := 0 }] ∧
    0 < flt hours ∧ flt hours ≤ 24 := by
  unfold logTime at h
  split at h
  · cases h
  · simp only at h
    split at h
    · cases h
    · split at h
      · cases h
      · split at h
        · split at h
          · have := insertTimeLog_ok _ _ _ _ _ h
            refine ⟨by rw [this.1], by linarith [lt_of_not_le (by assumption : ¬ flt hours ≤ 0)], ?_⟩
            simpa [flt] using this.2
          · cases h
        · cases h

theorem bulkItem_ok_preserves (ctx : Ctx) (s : Store) (idx : Nat)
    (ld : LogSpec) (s' : Store) (n : String)
    (h : bulkItem ctx s idx ld = .ok (s', n)) (hs : StoreInv s) :
    StoreInv s' ∧ s'.projects = s.projects := by
  unfold bulkItem at h
  split at h
  · cases h
  · simp only at h
    split at h
    · cases h
    · rename_i hpos
      split at h
      · cases h
      · rename_i r hins
        cases h
        have hik := insertTimeLog_ok _ _ _ _ _ hins
        constructor
        · rw [hik.1]
          intro e he
          rcases List.mem_append.mp he with he' | he'
          · exact hs e he'
          · rcases List.mem_singleton.mp he' with rfl
            refine ⟨?_, by simpa [flt] using hik.2⟩
            simpa [flt] using lt_of_not_le hpos
        · rw [hik.1]

theorem bulkLoop_preserves (ctx : Ctx) (logs : List LogSpec) :
    ∀ (s : Store) (idx : Nat), StoreInv s →
      StoreInv (bulkLoop ctx s idx logs).1 := by
  induction logs with
  | nil => intro s idx h; simpa [bulkLoop] using h
  | cons ld rest ih =>
    intro s idx h
    simp only [bulkLoop]
    cases hbi : bulkItem ctx s idx ld with
    | ok r =>
      simp only
      exact ih r.1 (idx + 1)
        (bulkItem_ok_preserves ctx s idx ld r.1 r.2 (by simpa using hbi) h).1
    | error msg =>
      simp only
      exact ih s (idx + 1) h

/-- C5 counterexample: the hours-range invariant is not preserved by
`safe_update_hours`.  `storeOneEntry` satisfies the invariant, the update to
25 hours succeeds (no range check is performed), and the resulting store
violates the invariant. -/
theorem C5_counterexample_safe_update :
    StoreInv storeOneEntry ∧
    safeUpdateHours ctxAdmin storeOneEntry "TL-1" (.num 25) =
      .ok (storeOneEntryUpd, 5, 25) ∧
    ¬ StoreInv storeOneEntryUpd := by
  refine ⟨by decide, by rfl, by decide⟩

/-- C5 amended: the (0, 24] hours invariant is preserved by the entry
creators — `log_time` and `bulk_log_time` (the latter through the
spec-modelled pre-insert hook for the upper bound) — but not by
`safe_update_hours`, which rewrites the hours field without any range
check. -/
theorem C5_amended_creators_preserve_invariant (ctx : Ctx) (s : Store)
    (h : StoreInv s) :
    (∀ project hours d dt s' n,
      logTime ctx s project hours d dt = .ok (s', n) → StoreInv s') ∧
    (∀ logs, StoreInv (bulkLogTime ctx s logs).1) := by
  constructor
  · intro project hours d dt s' n hok
    have hinv := logTime_ok_inversion ctx s project hours d dt s' n hok
    intro e he
    rw [hinv.1] at he
    rcases List.mem_append.mp he with he' | he'
    · exact h e he'
    · rcases List.mem_singleton.mp he' with rfl
      exact ⟨by simpa [flt] using hinv.2.1, by simpa [flt] using hinv.2.2⟩
  · intro logs
    exact bulkLoop_preserves ctx logs s 0 h

/-- Witness for the amended C5 at a concrete input: from the valid store
`storeOneEntry`, logging 3 further hours via `log_time` yields a store that
still satisfies the invariant, as does a three-item bulk import. -/
theorem C5_amended_creators_preserve_invariant_witness :
    StoreInv storeOneEntry ∧
    StoreInv (bulkLogTime ctxAdmin storeOneEntry bulkThree).1 := by
  refine ⟨by decide, ?_⟩
  exact (C5_amended_creators_preserve_invariant ctxAdmin storeOneEntry
    (by decide)).2 bulkThree

theorem insertTimeLog_ok_checks (ctx : Ctx) (s : Store) (e : TimeEntry)
    (s' : Store) (n : String) (h : insertTimeLog ctx s e = .ok (s', n)) :
    projectExists s e.project = true ∧ ctx.canCreateTimeLog = true := by
  unfold insertTimeLog at h
  split at h
  · split at h
    · exact ⟨by assumption, by assumption⟩
    · cases h
  · cases h

theorem bulkItem_ok_projects (ctx : Ctx) (s : Store) (idx : Nat)
    (ld : LogSpec) (s' : Store) (n : String)
    (h : bulkItem ctx s idx ld = .ok (s', n)) : s'.projects = s.projects := by
  unfold bulkItem at h
  split at h
  · cases h
  · simp only at h
    split at h
    · cases h
    · split at h
      · cases h
      · rename_i r hins
        cases h
        rw [(insertTimeLog_ok _ _ _ _ _ hins).1]

theorem bulkItem_ok_valid (ctx : Ctx) (s : Store) (idx : Nat) (ld : LogSpec)
    (s' : Store) (n : String) (h : bulkItem ctx s idx ld = .ok (s', n)) :
    validItem s.projects ld := by
  unfold bulkItem at h
  split at h
  · cases h
  · rename_i h1
    simp only at h
    split at h
    · cases h
    · rename_i h2
      split at h
      · cases h
      · rename_i r hins
        cases h
        have hchk := insertTimeLog_ok_checks _ _ _ _ _ hins
        have hle := (insertTimeLog_ok _ _ _ _ _ hins).2
        refine ⟨h1, ?_, lt_of_not_le h2, ?_⟩
        · simpa [projectExists] using hchk.1
        · simpa [flt] using hle

theorem bulkItem_err_of_invalid (ctx : Ctx) (s : Store) (idx : Nat)
    (ld : LogSpec) (hinvalid : ¬ validItem s.projects ld) :
    ∃ msg, bulkItem ctx s idx ld = .error msg := by
  cases hbi : bulkItem ctx s idx ld with
  | ok r =>
    exact absurd (bulkItem_ok_valid ctx s idx ld r.1 r.2
      (by simpa using hbi)) hinvalid
  | error m => exact ⟨m, rfl⟩

theorem bulkItem_ok_of_valid (ctx : Ctx) (s : Store) (idx : Nat)
    (ld : LogSpec) (hc : ctx.canCreateTimeLog = true)
    (hv : validItem s.projects ld) :
    ∃ r, bulkItem ctx s idx ld = .ok r := by
  obtain ⟨h1, h2, h3, h4⟩ := hv
  refine ⟨({ s with entries := s.entries ++
    [⟨newName s, ld.project.getD "", .num (flt (ld.hours.getD (.num 0))),
      ld.description.getD "", ld.log_date.getD ctx.today, ctx.user, 0⟩] },
    newName s), ?_⟩
  unfold bulkItem insertTimeLog validate_time_log
  rw [if_neg h1]
  simp only
  rw [if_neg (not_le.mpr h3), if_pos hc,
    if_pos (show projectExists s (ld.project.getD "") = true from h2),
    if_neg (show ¬ (24 < flt (Param.num (flt (ld.hours.getD (.num 0)))))
      from not_lt.mpr h4)]

theorem bulkLoop_all_ok (ctx : Ctx) (hc : ctx.canCreateTimeLog = true) :
    ∀ (logs : List LogSpec) (s : Store) (idx : Nat),
      (∀ ld ∈ logs, validItem s.projects ld) →
      (bulkLoop ctx s idx logs).2.1.length = logs.length ∧
      (bulkLoop ctx s idx logs).2.2 = [] := by
  intro logs
  induction logs with
  | nil => intro s idx _; simp [bulkLoop]
  | cons ld rest ih =>
    intro s idx hv
    obtain ⟨r, hr⟩ := bulkItem_ok_of_valid ctx s idx ld hc
      (hv ld (List.mem_cons_self ld rest))
    rcases r with ⟨s', n⟩
    have hproj : s'.projects = s.projects :=
      bulkItem_ok_projects ctx s idx ld s' n hr
    have := ih s' (idx + 1) (fun l hl => by
      rw [hproj]; exact hv l (List.mem_cons_of_mem ld hl))
    simp only [bulkLoop, hr]
    exact ⟨by simp [this.1], this.2⟩

theorem bulkLoop_single_invalid (ctx : Ctx) (hc : ctx.canCreateTimeLog = true) :
    ∀ (logs : List LogSpec) (s : Store) (idx k : Nat) (hk : k < logs.length),
      (∀ i, (hi : i < logs.length) → i ≠ k →
        validItem s.projects (logs.get ⟨i, hi⟩)) →
      ¬ validItem s.projects (logs.get ⟨k, hk⟩) →
      (bulkLoop ctx s idx logs).2.1.length = logs.length - 1 ∧
      ∃ msg, (bulkLoop ctx s idx logs).2.2 = [(idx + k, msg)] := by
  intro logs
  induction logs with
  | nil => intro s idx k hk; exact absurd hk (Nat.not_lt_zero k)
  | cons ld rest ih =>
    intro s idx k hk hothers hbad
    cases k with
    | zero =>
      obtain ⟨msg, hmsg⟩ := bulkItem_err_of_invalid ctx s idx ld
        (by simpa using hbad)
      have hrest : ∀ l ∈ rest, validItem s.projects l := by
        intro l hl
        obtain ⟨⟨j, hj⟩, rfl⟩ := List.mem_iff_get.mp hl
        have := hothers (j + 1) (by simpa using Nat.succ_lt_succ hj)
          (Nat.succ_ne_zero j)
        simpa using this
      have hall := bulkLoop_all_ok ctx hc rest s (idx + 1) hrest
      simp only [bulkLoop, hmsg]
      exact ⟨by simp [hall.1], ⟨msg, by simp [hall.2]⟩⟩
    | succ k' =>
      have hv : validItem s.projects ld := by
        simpa using hothers 0 (Nat.succ_pos _) (by omega)
      obtain ⟨r, hr⟩ := bulkItem_ok_of_valid ctx s idx ld hc hv
      rcases r with ⟨s', n⟩
      have hproj : s'.projects = s.projects :=
        bulkItem_ok_projects ctx s idx ld s' n hr
      have hk' : k' < rest.length := Nat.lt_of_succ_lt_succ hk
      have hrec := ih s' (idx + 1) k' hk'
        (fun i hi hne => by
          rw [hproj]
          have := hothers (i + 1) (by simpa using Nat.succ_lt_succ hi)
            (by omega)
          simpa using this)
        (by rw [hproj]; simpa using hbad)
      simp only [bulkLoop, hr]
      constructor
      · have := hrec.1
        simp only [List.length_cons]
        omega
      · obtain ⟨msg, hm⟩ := hrec.2
        refine ⟨msg, ?_⟩
        have harr : idx + 1 + k' = idx + (k' + 1) := by omega
        rw [hm, harr]

/-- C6: for a bulk import in which exactly the item at (0-based) position `k`
is invalid and every other item is valid, the result counts `N − 1` created
entries and one error, whose recorded index is `k`; the failing item never
aborts the batch. -/
theorem C6_bulk_partial_failure (ctx : Ctx) (s : Store) (logs : List LogSpec)
    (k : Nat) (hc : ctx.canCreateTimeLog = true) (hk : k < logs.length)
    (hbad : ¬ validItem s.projects (logs.get ⟨k, hk⟩))
    (hothers : ∀ i, (hi : i < logs.length) → i ≠ k →
      validItem s.projects (logs.get ⟨i, hi⟩)) :
    (bulkLogTime ctx s logs).2.created_count = logs.length - 1 ∧
    (bulkLogTime ctx s logs).2.error_count = 1 ∧
    ∃ msg, (bulkLogTime ctx s logs).2.errors = [(k, msg)] := by
  have h := bulkLoop_single_invalid ctx hc logs s 0 k hk hothers hbad
  obtain ⟨msg, hm⟩ := h.2
  unfold bulkLogTime
  simp only
  refine ⟨h.1, by simp [hm], ⟨msg, by simpa using hm⟩⟩

/-- Witness for C6 at a concrete input: a three-item batch whose middle item
has hours 0; two entries are created and the single error carries index 1. -/
theorem C6_bulk_partial_failure_witness :
    ctxAdmin.canCreateTimeLog = true ∧ 1 < bulkThree.length ∧
    (bulkLogTime ctxAdmin storeOneEntry bulkThree).2.created_count = 2 ∧
    (bulkLogTime ctxAdmin storeOneEntry bulkThree).2.error_count = 1 ∧
    ∃ msg, (bulkLogTime ctxAdmin storeOneEntry bulkThree).2.errors =
      [(1, msg)] := by
  have h := C6_bulk_partial_failure ctxAdmin storeOneEntry bulkThree 1 rfl
    (by decide) (by decide)
    (fun i hi hne => by
      have hi3 : i = 0 ∨ i = 1 ∨ i = 2 := by
        have : bulkThree.length = 3 := by decide
        omega
      rcases hi3 with rfl | rfl | rfl
      · rw [show bulkThree.get ⟨0, hi⟩ =
          { project := some "PROJ-001", hours := some (.num 2),
            description := none, log_date := none } from rfl]
        decide
      · exact absurd rfl hne
      · rw [show bulkThree.get ⟨2, hi⟩ =
          { project := some "PROJ-001", hours := some (.num 3),
            description := none, log_date := none } from rfl]
        decide)
  exact ⟨rfl, by decide, by simpa using h.1, by simpa using h.2.1, h.2.2⟩

/-- C4 counterexample: `get_project_summary` applies no cancellation filter.
In `storeCancelled` the only entry is cancelled (`docstatus = 2`), so the set
of not-cancelled entries is empty, yet the summary counts the cancelled entry
and sums its 7 hours — the claim that every aggregation includes exactly the
not-cancelled entries is false for the summary. -/
theorem C4_counterexample_summary_counts_cancelled :
    storeCancelled.entries.filter (fun e => e.docstatus != 2) = [] ∧
    (getProjectSummary storeCancelled "PROJ-001").map
      (fun r => (r.total_hours, r.log_count)) = .ok (7, 1) := by
  refine ⟨by decide, ?_⟩
  have hs : getProjectSummary storeCancelled "PROJ-001" = .ok
      { project := "PROJ-001", total_hours := 7, billing_rate := 10,
        total_amount := 70, log_count := 1,
        logs := [mkEntry "TL-1" "PROJ-001" "alice" 7 3 2] } := by
    unfold getProjectSummary
    rw [if_pos (by decide : projectExists storeCancelled "PROJ-001" = true)]
    norm_num [storeCancelled, projA, mkEntry, getProject, sortBy, insertBy,
      totalHours, flt, fltOpt, Summary.mk.injEq]
  rw [hs]
  rfl

/-- C4 amended: the three aggregations use three different row predicates.
The all-employees report consumes exactly the period's entries with
`docstatus ≠ 2` (the not-cancelled predicate, as claimed); `generate_invoice`
consumes exactly the period's entries with `docstatus = 0` (draft), which
excludes cancelled entries but also submitted ones; and
`get_project_summary` applies no cancellation condition at all — every entry
of the project is eligible regardless of docstatus (up to the 100-row
limit), cancelled entries included. -/
theorem C4_amended_aggregation_predicates (ctx : Ctx) (s : Store)
    (project : String) (month year : Nat) :
    (∀ e ∈ s.entries, (employeesFilter month year e = true ↔
      (e.log_date.month = month ∧ e.log_date.year = year ∧
        e.docstatus ≠ 2))) ∧
    (∀ inv, (generateInvoice ctx s project month year).2 = .ok inv →
      ∀ e, (e ∈ inv.logs ↔ (e ∈ s.entries ∧ e.project = project ∧
        e.log_date.month = month ∧ e.log_date.year = year ∧
        e.docstatus = 0))) ∧
    (∀ r, getProjectSummary s project = .ok r →
      (∀ e ∈ r.logs, e.project = project) ∧
      ((s.entries.filter (fun e => e.project == project)).length ≤ 100 →
        ∀ e ∈ s.entries, e.project = project → e ∈ r.logs)) := by
  refine ⟨?_, ?_, ?_⟩
  · intro e _
    simp [employeesFilter, and_assoc]
  · intro inv h e
    unfold generateInvoice at h
    split at h
    · split at h
      · cases h
      · simp only at h
        split at h
        · cases h
        · split at h
          · cases h
          · cases h
            simp only
            rw [mem_sortBy, List.mem_filter]
            simp [invoiceFilter, and_assoc]
    · cases h
  · intro r h
    unfold getProjectSummary at h
    split at h
    · simp only at h
      cases h
      constructor
      · intro e he
        simp only at he
        have h1 : e ∈ sortBy (fun e₁ e₂ => decide (dateLe e₂.log_date e₁.log_date))
            (s.entries.filter (fun e => e.project == project)) :=
          List.take_subset 100 _ he
        rw [mem_sortBy] at h1
        simpa using (List.mem_filter.mp h1).2
      · intro hlen e he hproj
        have hlen' : (sortBy (fun e₁ e₂ => decide (dateLe e₂.log_date e₁.log_date))
            (s.entries.filter (fun e => e.project == project))).length ≤ 100 := by
          rw [(sortBy_perm _ _).length_eq]
          exact hlen
        simp only [List.take_of_length_le hlen']
        rw [mem_sortBy, List.mem_filter]
        exact ⟨he, by simpa using hproj⟩
    · cases h

/-- Witness for the amended C4 at a concrete input: the cancelled entry of
`storeCancelled` is in the store, and the all-employees predicate holds of
it exactly when its docstatus differs from 2 (here it does not, so both
sides are false). -/
theorem C4_amended_aggregation_predicates_witness :
    (mkEntry "TL-1" "PROJ-001" "alice" 7 3 2) ∈ storeCancelled.entries ∧
    (employeesFilter 5 2024 (mkEntry "TL-1" "PROJ-001" "alice" 7 3 2) = true ↔
      ((mkEntry "TL-1" "PROJ-001" "alice" 7 3 2).log_date.month = 5 ∧
       (mkEntry "TL-1" "PROJ-001" "alice" 7 3 2).log_date.year = 2024 ∧
       (mkEntry "TL-1" "PROJ-001" "alice" 7 3 2).docstatus ≠ 2)) := by
  refine ⟨by decide, ?_⟩
  exact (C4_amended_aggregation_predicates ctxAdmin storeCancelled "PROJ-001"
    5 2024).1 _ (by decide)

/-! ### Correctness of the grouped aggregation -/

theorem totalHours_append (l₁ l₂ : List TimeEntry) :
    totalHours (l₁ ++ l₂) = totalHours l₁ + totalHours l₂ := by
  simp [totalHours]

theorem groupRows_append (rows : List TimeEntry) (e : TimeEntry) :
    groupRows (rows ++ [e]) = addRow (groupRows rows) e := by
  simp [groupRows, List.foldl_append]

theorem addRow_upd_keys (e : TimeEntry) (g : GroupRow) :
    ((if g.logged_by == e.logged_by && g.project == e.project then
        { g with total_hours := g.total_hours + flt e.hours,
                 entries := g.entries + 1 }
      else g) : GroupRow).logged_by = g.logged_by ∧
    ((if g.logged_by == e.logged_by && g.project == e.project then
        { g with total_hours := g.total_hours + flt e.hours,
                 entries := g.entries + 1 }
      else g) : GroupRow).project = g.project := by
  by_cases h : (g.logged_by == e.logged_by && g.project == e.project) = true
  · rw [if_pos h]; exact ⟨rfl, rfl⟩
  · rw [if_neg h]; exact ⟨rfl, rfl⟩

theorem groupRows_spec (rows : List TimeEntry) :
    ((groupRows rows).Pairwise (fun g₁ g₂ =>
      ¬ (g₁.logged_by = g₂.logged_by ∧ g₁.project = g₂.project))) ∧
    (∀ g ∈ groupRows rows,
      g.total_hours = totalHours (rows.filter (keyMatch g.logged_by g.project)) ∧
      g.entries = (rows.filter (keyMatch g.logged_by g.project)).length) ∧
    (∀ a p, (∃ g ∈ groupRows rows, g.logged_by = a ∧ g.project = p) ↔
      (∃ e ∈ rows, e.logged_by = a ∧ e.project = p)) := by
  induction rows using List.reverseRecOn with
  | nil => simp [groupRows]
  | append_singleton rows e ih =>
    obtain ⟨ihPW, ihTot, ihKey⟩ := ih
    rw [groupRows_append]
    by_cases hin : ((groupRows rows).any
        (fun g => g.logged_by == e.logged_by && g.project == e.project)) = true
    · -- the key of `e` is already grouped: in-place update
      unfold addRow
      rw [if_pos hin]
      refine ⟨?_, ?_, ?_⟩
      · rw [List.pairwise_map]
        refine ihPW.imp ?_
        intro g₁ g₂ hne hcon
        exact hne ⟨by rw [← (addRow_upd_keys e g₁).1, ← (addRow_upd_keys e g₂).1,
            hcon.1], by rw [← (addRow_upd_keys e g₁).2,
            ← (addRow_upd_keys e g₂).2, hcon.2]⟩
      · intro g' hg'
        obtain ⟨g, hg, rfl⟩ := List.mem_map.mp hg'
        by_cases hk : (g.logged_by == e.logged_by && g.project == e.project) = true
        · have hlb : g.logged_by = e.logged_by := by
            have := (Bool.and_eq_true _ _).mp hk
            exact beq_iff_eq.mp this.1
          have hpr : g.project = e.project := by
            have := (Bool.and_eq_true _ _).mp hk
            exact beq_iff_eq.mp this.2
          have hmatch : keyMatch g.logged_by g.project e = true := by
            simp [keyMatch, hlb, hpr]
          rw [if_pos hk]
          simp only [List.filter_append, totalHours_append, List.length_append]
          rw [show (List.filter (keyMatch g.logged_by g.project) [e]) = [e] by
            simp [List.filter, hmatch]]
          constructor
          · rw [(ihTot g hg).1]
            simp [totalHours]
          · rw [(ihTot g hg).2]
            simp
        · have hmiss : keyMatch g.logged_by g.project e = false := by
            simp only [keyMatch]
            simp only [Bool.and_eq_true, beq_iff_eq] at hk ⊢
            simp only [Bool.and_eq_false_iff, beq_eq_false_iff_ne]
            by_cases h1 : g.logged_by = e.logged_by
            · exact Or.inr (fun h2 => hk ⟨h1, h2.symm⟩)
            · exact Or.inl (fun h2 => h1 h2.symm)
          rw [if_neg hk]
          simp only [List.filter_append, totalHours_append, List.length_append]
          rw [show (List.filter (keyMatch g.logged_by g.project) [e]) = [] by
            simp [List.filter, hmiss]]
          constructor
          · rw [(ihTot g hg).1]; simp [totalHours]
          · rw [(ihTot g hg).2]; simp
      · intro a p
        have hmapkey : (∃ g' ∈ (groupRows rows).map (fun g =>
            if g.logged_by == e.logged_by && g.project == e.project then
              { g with total_hours := g.total_hours + flt e.hours,
                       entries := g.entries + 1 }
            else g), g'.logged_by = a ∧ g'.project = p) ↔
            (∃ g ∈ groupRows rows, g.logged_by = a ∧ g.project = p) := by
          constructor
          · rintro ⟨g', hg', hk⟩
            obtain ⟨g, hg, rfl⟩ := List.mem_map.mp hg'
            exact ⟨g, hg, by rw [← (addRow_upd_keys e g).1]; exact hk.1,
              by rw [← (addRow_upd_keys e g).2]; exact hk.2⟩
          · rintro ⟨g, hg, hk1, hk2⟩
            refine ⟨_, List.mem_map_of_mem _ hg, ?_, ?_⟩
            · rw [(addRow_upd_keys e g).1]; exact hk1
            · rw [(addRow_upd_keys e g).2]; exact hk2
        rw [hmapkey, ihKey]
        constructor
        · rintro ⟨e', he', hk⟩
          exact ⟨e', List.mem_append_left _ he', hk⟩
        · rintro ⟨e', he', hk⟩
          rcases List.mem_append.mp he' with he'' | he''
          · exact ⟨e', he'', hk⟩
          · rcases List.mem_singleton.mp he'' with rfl
            obtain ⟨g, hg, hgk⟩ := List.any_eq_true.mp hin
            have hglb : g.logged_by = e'.logged_by := by
              have := (Bool.and_eq_true _ _).mp hgk
              exact beq_iff_eq.mp this.1
            have hgpr : g.project = e'.project := by
              have := (Bool.and_eq_true _ _).mp hgk
              exact beq_iff_eq.mp this.2
            exact (ihKey a p).mp ⟨g, hg, by rw [hglb]; exact hk.1,
              by rw [hgpr]; exact hk.2⟩
    · -- first sighting of the key of `e`: a new group is appended
      unfold addRow
      rw [if_neg hin]
      have hnone : ∀ g ∈ groupRows rows,
          ¬ (g.logged_by = e.logged_by ∧ g.project = e.project) := by
        intro g hg hcon
        apply hin
        rw [List.any_eq_true]
        exact ⟨g, hg, by simp [hcon.1, hcon.2]⟩
      have hnorow : ∀ e' ∈ rows,
          ¬ (e'.logged_by = e.logged_by ∧ e'.project = e.project) := by
        intro e' he' hcon
        obtain ⟨g, hg, hgk⟩ := (ihKey e.logged_by e.project).mpr
          ⟨e', he', hcon.1, hcon.2⟩
        exact hnone g hg ⟨hgk.1, hgk.2⟩
      refine ⟨?_, ?_, ?_⟩
      · rw [List.pairwise_append]
        refine ⟨ihPW, List.pairwise_singleton _ _, ?_⟩
        intro g hg g' hg' hcon
        rcases List.mem_singleton.mp hg' with rfl
        exact hnone g hg ⟨hcon.1, hcon.2⟩
      · intro g' hg'
        rcases List.mem_append.mp hg' with hg | hg
        · have hmiss : keyMatch g'.logged_by g'.project e = false := by
            simp only [keyMatch, Bool.and_eq_false_iff, beq_eq_false_iff_ne]
            by_cases h1 : g'.logged_by = e.logged_by
            · exact Or.inr (fun h2 => hnone g' hg ⟨h1, h2.symm⟩)
            · exact Or.inl (fun h2 => h1 h2.symm)
          simp only [List.filter_append, totalHours_append, List.length_append]
          rw [show (List.filter (keyMatch g'.logged_by g'.project) [e]) = [] by
            simp [List.filter, hmiss]]
          constructor
          · rw [(ihTot g' hg).1]; simp [totalHours]
          · rw [(ihTot g' hg).2]; simp
        · rcases List.mem_singleton.mp hg with rfl
          have hempty : List.filter (keyMatch e.logged_by e.project) rows = [] := by
            rw [List.filter_eq_nil_iff]
            intro e' he' hk
            exact hnorow e' he' ⟨beq_iff_eq.mp ((Bool.and_eq_true _ _).mp hk).1,
              beq_iff_eq.mp ((Bool.and_eq_true _ _).mp hk).2⟩
          simp only [List.filter_append]
          rw [hempty]
          rw [show (List.filter (keyMatch e.logged_by e.project) [e]) = [e] by
            simp [List.filter, keyMatch]]
          simp [totalHours]
      · intro a p
        constructor
        · rintro ⟨g, hg, hk⟩
          rcases List.mem_append.mp hg with hg' | hg'
          · obtain ⟨e', he', hek⟩ := (ihKey a p).mp ⟨g, hg', hk⟩
            exact ⟨e', List.mem_append_left _ he', hek⟩
          · rcases List.mem_singleton.mp hg' with rfl
            exact ⟨e, List.mem_append_right _ (List.mem_singleton_self e),
              hk.1.symm ▸ rfl, hk.2.symm ▸ rfl⟩
        · rintro ⟨e', he', hk⟩
          rcases List.mem_append.mp he' with he'' | he''
          · obtain ⟨g, hg, hgk⟩ := (ihKey a p).mpr ⟨e', he'', hk⟩
            exact ⟨g, List.mem_append_left _ hg, hgk⟩
          · rcases List.mem_singleton.mp he'' with rfl
            refine ⟨_, List.mem_append_right _ (List.mem_singleton_self _),
              ?_, ?_⟩
            · exact hk.1
            · exact hk.2

/-- C7: for a privileged caller, the all-employees report groups the
period's (non-cancelled) rows by the (author, project) composite key, each
returned group carrying the sum of its rows' hours and their count; the
groups present are exactly the keys occurring in the rows; the output is a
permutation of the discovery-order groups, sorted by total hours descending,
and stable: for every total value `c`, the groups totalling `c` appear in
exactly their discovery order. -/
theorem C7_grouped_report_ordering (ctx : Ctx) (s : Store) (month year : Nat)
    (r : Nat × Nat × List GroupRow)
    (h : (getAllEmployeesHours ctx s month year).2 = .ok r) :
    r.2.2.Perm (groupRows (s.entries.filter (employeesFilter month year))) ∧
    r.2.2.Pairwise (fun g₁ g₂ => g₂.total_hours ≤ g₁.total_hours) ∧
    (∀ c : ℚ, r.2.2.filter (fun g => g.total_hours == c) =
      (groupRows (s.entries.filter (employeesFilter month year))).filter
        (fun g => g.total_hours == c)) ∧
    (∀ g ∈ r.2.2,
      g.total_hours = totalHours ((s.entries.filter
        (employeesFilter month year)).filter
          (keyMatch g.logged_by g.project)) ∧
      g.entries = ((s.entries.filter (employeesFilter month year)).filter
        (keyMatch g.logged_by g.project)).length) ∧
    (∀ a p, (∃ g ∈ r.2.2, g.logged_by = a ∧ g.project = p) ↔
      (∃ e ∈ s.entries.filter (employeesFilter month year),
        e.logged_by = a ∧ e.project = p)) := by
  unfold getAllEmployeesHours at h
  split at h
  · simp only at h
    cases h
    simp only
    have hspec := groupRows_spec (s.entries.filter (employeesFilter month year))
    have hperm := sortBy_perm
      (fun g₁ g₂ : GroupRow => decide (g₂.total_hours ≤ g₁.total_hours))
      (groupRows (s.entries.filter (employeesFilter month year)))
    refine ⟨hperm, ?_, ?_, ?_, ?_⟩
    · have := pairwise_sortBy
        (fun g₁ g₂ : GroupRow => decide (g₂.total_hours ≤ g₁.total_hours))
        (fun x y hxy => by
          simp only [decide_eq_false_iff_not, not_le] at hxy
          simpa using le_of_lt hxy)
        (fun x y z hxy hyz => by
          simp only [decide_eq_true_eq] at hxy hyz ⊢
          exact le_trans hyz hxy)
        (groupRows (s.entries.filter (employeesFilter month year)))
      exact this.imp (fun hxy => by simpa using hxy)
    · intro c
      apply sortBy_filter_stable
      intro x y hx hxy
      simp only [beq_iff_eq] at hx
      simp only [decide_eq_false_iff_not, not_le] at hxy
      simp only [beq_eq_false_iff_ne]
      intro hy
      rw [hx, hy] at hxy
      exact absurd hxy (lt_irrefl c)
    · intro g hg
      exact hspec.2.1 g ((mem_sortBy _ _ g).mp hg)
    · intro a p
      rw [← hspec.2.2 a p]
      constructor
      · rintro ⟨g, hg, hk⟩
        exact ⟨g, (mem_sortBy _ _ g).mp hg, hk⟩
      · rintro ⟨g, hg, hk⟩
        exact ⟨g, (mem_sortBy _ _ g).mpr hg, hk⟩
  · cases h

/-- Witness for C7 at a concrete input: in `storeGroups` the discovery-order
group totals are [12, 5, 12, 3]; the report returns both 12-total groups
before the 5-total group, keeping alice (first seen) before carol. -/
theorem C7_grouped_report_ordering_witness :
    ((getAllEmployeesHours ctxAdmin storeGroups 5 2024).2 =
      .ok (5, 2024, groupsExpected)) ∧
    ((5, 2024, groupsExpected).2.2.Perm
      (groupRows (storeGroups.entries.filter (employeesFilter 5 2024))) ∧
     (5, 2024, groupsExpected).2.2.Pairwise
       (fun g₁ g₂ => g₂.total_hours ≤ g₁.total_hours) ∧
     (∀ c : ℚ, (5, 2024, groupsExpected).2.2.filter
         (fun g => g.total_hours == c) =
       (groupRows (storeGroups.entries.filter (employeesFilter 5 2024))).filter
         (fun g => g.total_hours == c)) ∧
     (∀ g ∈ (5, 2024, groupsExpected).2.2,
       g.total_hours = totalHours ((storeGroups.entries.filter
         (employeesFilter 5 2024)).filter (keyMatch g.logged_by g.project)) ∧
       g.entries = ((storeGroups.entries.filter
         (employeesFilter 5 2024)).filter
           (keyMatch g.logged_by g.project)).length) ∧
     (∀ a p, (∃ g ∈ (5, 2024, groupsExpected).2.2,
         g.logged_by = a ∧ g.project = p) ↔
       (∃ e ∈ storeGroups.entries.filter (employeesFilter 5 2024),
         e.logged_by = a ∧ e.project = p))) := by
  have hok : (getAllEmployeesHours ctxAdmin storeGroups 5 2024).2 =
      .ok (5, 2024, groupsExpected) := by rfl
  exact ⟨hok, C7_grouped_report_ordering ctxAdmin storeGroups 5 2024
    (5, 2024, groupsExpected) hok⟩

theorem logTime_success (ctx : Ctx) (s : Store) (project : String)
    (hours : Param) (d : Option String) (dt : Option Date)
    (hp : project ≠ "") (hc : ctx.canCreateTimeLog = true)
    (he : projectExists s project = true)
    (h0 : 0 < flt hours) (h24 : flt hours ≤ 24) :
    logTime ctx s project hours d dt = .ok
      ({ s with entries := s.entries ++
        [{ name := newName s, project := project, hours := .num (flt hours),
           description := d.getD "", log_date := dt.getD ctx.today,
           logged_by := ctx.user, docstatus := 0 }] }, newName s) := by
  simp only [logTime, if_neg hp, if_neg (not_le.mpr h0),
    if_neg (not_lt.mpr h24), insertTimeLog, validate_time_log, hc, if_pos he]
  rw [if_neg (show ¬ (24 < flt (Param.num (flt hours))) from not_lt.mpr h24)]
  simp

theorem getProjectSummary_two_entries (s : Store) (project : String)
    (pd : Project) (hpd : getProject s project = some pd) (q : ℚ)
    (hrate : pd.billing_rate = some q) (e₁ e₂ : TimeEntry)
    (h1 : e₁.project = project) (h2 : e₂.project = project)
    (hmain : List.filter (fun e => e.project == project) s.entries = [])
    (s₂ : Store) (hproj : s₂.projects = s.projects)
    (hent : s₂.entries = s.entries ++ [e₁] ++ [e₂]) :
    getProjectSummary s₂ project = .ok
      { project := project
        total_hours := totalHours ((sortBy (fun x y =>
          decide (dateLe y.log_date x.log_date)) [e₁, e₂]).take 100)
        billing_rate := q
        total_amount := totalHours ((sortBy (fun x y =>
          decide (dateLe y.log_date x.log_date)) [e₁, e₂]).take 100) * q
        log_count := ((sortBy (fun x y =>
          decide (dateLe y.log_date x.log_date)) [e₁, e₂]).take 100).length
        logs := (sortBy (fun x y =>
          decide (dateLe y.log_date x.log_date)) [e₁, e₂]).take 100 } := by
  have he : projectExists s₂ project = true := by
    unfold projectExists
    rw [hproj]
    have := getProject_some_exists s project pd hpd
    unfold projectExists at this
    exact this
  unfold getProjectSummary
  rw [if_pos he]
  unfold getProject
  rw [hent, hproj]
  unfold getProject at hpd
  rw [List.filter_append, List.filter_append, hmain,
    show List.filter (fun e => e.project == project) [e₁] = [e₁] by
      simp [List.filter, h1],
    show List.filter (fun e => e.project == project) [e₂] = [e₂] by
      simp [List.filter, h2],
    hpd]
  simp only [Option.some_bind, hrate]
  rfl

/-- C9: starting from any store with no entries for project `P` (and `P`
present with billing rate 10), logging 2 then 3 hours and reading the
project summary yields total_hours = 5, total_amount = 50, log_count = 2. -/
theorem C9_round_trip (ctx : Ctx) (s : Store) (project : String)
    (d₁ d₂ : Date) (pd : Project)
    (hp : project ≠ "") (hc : ctx.canCreateTimeLog = true)
    (hpd : getProject s project = some pd)
    (hrate : pd.billing_rate = some 10)
    (hnone : ∀ e ∈ s.entries, e.project ≠ project) :
    logTwoThenSummary ctx s project d₁ d₂ = .ok (5, 50, 2) := by
  have he1 : projectExists s project = true :=
    getProject_some_exists s project pd hpd
  have h1 := logTime_success ctx s project (.num 2) none (some d₁) hp hc he1
    (by norm_num [flt]) (by norm_num [flt])
  unfold logTwoThenSummary
  rw [h1]
  simp only
  have h2 := logTime_success ctx
    ({ s with entries := s.entries ++
      [{ name := newName s, project := project, hours := .num (flt (.num 2)),
         description := (none : Option String).getD "",
         log_date := (some d₁).getD ctx.today,
         logged_by := ctx.user, docstatus := 0 }] })
    project (.num 3) none (some d₂) hp hc he1
    (by norm_num [flt]) (by norm_num [flt])
  rw [h2]
  simp only
  have hfil : List.filter (fun e => e.project == project) s.entries = [] := by
    rw [List.filter_eq_nil_iff]
    intro e he
    simp [hnone e he]
  rw [getProjectSummary_two_entries s project pd hpd 10 hrate
    { name := newName s, project := project, hours := .num (flt (.num 2)),
      description := (none : Option String).getD "",
      log_date := (some d₁).getD ctx.today,
      logged_by := ctx.user, docstatus := 0 }
    { name := newName ({ s with entries := s.entries ++
        [{ name := newName s, project := project,
           hours := .num (flt (.num 2)),
           description := (none : Option String).getD "",
           log_date := (some d₁).getD ctx.today,
           logged_by := ctx.user, docstatus := 0 }] }),
      project := project, hours := .num (flt (.num 3)),
      description := (none : Option String).getD "",
      log_date := (some d₂).getD ctx.today,
      logged_by := ctx.user, docstatus := 0 }
    rfl rfl hfil
    ({ s with entries := s.entries ++
      [{ name := newName s, project := project, hours := .num (flt (.num 2)),
         description := (none : Option String).getD "",
         log_date := (some d₁).getD ctx.today,
         logged_by := ctx.user, docstatus := 0 }] ++
      [{ name := newName ({ s with entries := s.entries ++
           [{ name := newName s, project := project,
              hours := .num (flt (.num 2)),
              description := (none : Option String).getD "",
              log_date := (some d₁).getD ctx.today,
              logged_by := ctx.user, docstatus := 0 }] }),
         project := project, hours := .num (flt (.num 3)),
         description := (none : Option String).getD "",
         log_date := (some d₂).getD ctx.today,
         logged_by := ctx.user, docstatus := 0 }] })
    rfl rfl]
  by_cases hd : dateLe ((some d₂).getD ctx.today)
      ((some d₁).getD ctx.today) <;>
    simp only [sortBy, insertBy, hd, decide_true_eq_true, decide_false_eq_false,
      if_true, if_false, decide_eq_true_eq] <;>
    norm_num [totalHours, flt, List.take]

/-- Witness for C9 at a concrete input: the empty store with project
`PROJ-001` at rate 10; logging 2 then 3 hours on May 3 and May 4 of 2024
yields the summary (5, 50, 2). -/
theorem C9_round_trip_witness :
    (("PROJ-001" : String) ≠ "") ∧
    getProject storeEmpty "PROJ-001" = some projA ∧
    projA.billing_rate = some 10 ∧
    logTwoThenSummary ctxAdmin storeEmpty "PROJ-001" ⟨2024, 5, 3⟩ ⟨2024, 5, 4⟩ =
      .ok (5, 50, 2) := by
  refine ⟨by decide, by rfl, rfl, ?_⟩
  exact C9_round_trip ctxAdmin storeEmpty "PROJ-001" ⟨2024, 5, 3⟩ ⟨2024, 5, 4⟩
    projA (by decide) rfl rfl rfl (by simp [storeEmpty])

/-- C10: for a privileged caller the CSV export succeeds, its content is
built from exactly the rows of `timesheetLogs`, and an entry of the store is
among those rows iff its project matches and its date lies in the requested
year and month with day between 1 and 28 inclusive — so entries dated the
29th, 30th or 31st of the month are absent from the export. -/
theorem C10_csv_day_range (ctx : Ctx) (s : Store) (project : String)
    (month year : Nat)
    (hrole : hasAnyRole ctx ["Time Tracker Manager", "System Manager"] = true) :
    (∀ f, downloadTimesheetCsv ctx s project month year = .ok f →
      f.content = String.intercalate "\n"
        ("Date,Employee,Hours,Description" ::
          (timesheetLogs s project month year).map csvLine)) ∧
    (∀ e ∈ s.entries, (e ∈ timesheetLogs s project month year ↔
      (e.project = project ∧ e.log_date.year = year ∧
        e.log_date.month = month ∧ 1 ≤ e.log_date.day ∧
        e.log_date.day ≤ 28))) := by
  constructor
  · intro f h
    unfold downloadTimesheetCsv at h
    rw [if_pos hrole] at h
    cases h
    rfl
  · intro e he
    simp only [timesheetLogs, List.mem_filter, he, true_and,
      Bool.and_eq_true, beq_iff_eq, decide_eq_true_eq]
    unfold dateLe
    simp only
    constructor
    · rintro ⟨⟨hp, h1⟩, h2⟩
      refine ⟨hp, ?_, ?_, ?_, ?_⟩ <;> omega
    · rintro ⟨hp, h1, h2, h3, h4⟩
      refine ⟨⟨hp, ?_⟩, ?_⟩ <;> omega

/-- Witness for C10 at a concrete input: in `storeMonthEnd` the May 15 entry
is exported while the May 30 entry — though it belongs to May — is not. -/
theorem C10_csv_day_range_witness :
    hasAnyRole ctxAdmin ["Time Tracker Manager", "System Manager"] = true ∧
    (mkEntry "TL-2" "PROJ-001" "alice" 3 30 0) ∈ storeMonthEnd.entries ∧
    ((mkEntry "TL-2" "PROJ-001" "alice" 3 30 0) ∈
        timesheetLogs storeMonthEnd "PROJ-001" 5 2024 ↔
      ((mkEntry "TL-2" "PROJ-001" "alice" 3 30 0).project = "PROJ-001" ∧
       (mkEntry "TL-2" "PROJ-001" "alice" 3 30 0).log_date.year = 2024 ∧
       (mkEntry "TL-2" "PROJ-001" "alice" 3 30 0).log_date.month = 5 ∧
       1 ≤ (mkEntry "TL-2" "PROJ-001" "alice" 3 30 0).log_date.day ∧
       (mkEntry "TL-2" "PROJ-001" "alice" 3 30 0).log_date.day ≤ 28)) ∧
    (mkEntry "TL-2" "PROJ-001" "alice" 3 30 0) ∉
      timesheetLogs storeMonthEnd "PROJ-001" 5 2024 ∧
    (mkEntry "TL-1" "PROJ-001" "alice" 2 15 0) ∈
      timesheetLogs storeMonthEnd "PROJ-001" 5 2024 := by
  refine ⟨by decide, by decide, ?_, by decide, by decide⟩
  exact (C10_csv_day_range ctxAdmin storeMonthEnd "PROJ-001" 5 2024
    (by decide)).2 _ (by decide)

end TimeTracker


